import Mathlib

/-!
Verification of the annotation indexing and interval-algebra engine of the
ChildProject repository (file ChildProject/annotations.py), against its
natural-language specification.

The Python code is shallowly embedded: pandas dataframes become lists of
records (structures), integer milliseconds become Int, missing values become
Option, and fallible calls return Except. Two behaviours of the pandas
library used by the code are modelled explicitly, following the pandas 1.x
sources (setup.py pins pandas between 1.1.0 and 1.5.0):

* Series.clip with two scalar bounds first reorders the bounds
  (pandas issue GH 2747: lower, upper := min, max) and then clamps, applying
  the upper bound first and the lower bound second, with both comparison
  masks taken from the original values.
* Series.clip with inplace set writes the clipped column back into the parent
  dataframe through the item cache, so AnnotationManager.clip_segments
  mutates the onset and offset columns of the dataframe it receives; only its
  return value is filtered by the positive-length condition.
-/

/-- Model of pandas Series.clip with two scalar integer bounds: the bounds are
reordered (lower := min, upper := max, pandas GH 2747), then the upper bound
is applied first and the lower bound second, both tested against the original
value. For ordered bounds this is the usual clamp into the closed interval. -/
def pdClip (lower upper x : Int) : Int :=
  if min lower upper ≤ x then (if x ≤ max lower upper then x else max lower upper)
  else min lower upper

theorem pdClip_bounds (lower upper x : Int) :
    min lower upper ≤ pdClip lower upper x ∧ pdClip lower upper x ≤ max lower upper := by
  unfold pdClip
  split <;> [skip; omega]
  split <;> omega

theorem pdClip_of_le {lower upper : Int} (x : Int) (h : lower ≤ upper) :
    pdClip lower upper x = max lower (min x upper) := by
  unfold pdClip
  split <;> [skip; omega]
  split <;> omega

/-- One row of a converted segment file. The columns beyond raw_filename that
the claims never inspect individually (speaker_type and the other attribute
columns of SEGMENTS_COLUMNS) are modelled by the single field attrs. -/
structure SegRow where
  segment_onset : Int
  segment_offset : Int
  raw_filename : String
  attrs : String
deriving DecidableEq

/-- Clamping of the onset and offset columns of one row, as performed by the
two Series.clip calls of AnnotationManager.clip_segments. -/
def clampSegRow (start stop : Int) (r : SegRow) : SegRow :=
  { r with segment_onset := pdClip start stop r.segment_onset,
           segment_offset := pdClip start stop r.segment_offset }

/-- Return value of AnnotationManager.clip_segments(segments, start, stop):
clamp every onset and offset into the bounds, then keep only the rows whose
clipped span has strictly positive length. -/
def clip_segments (segments : List SegRow) (start stop : Int) : List SegRow :=
  (segments.map (clampSegRow start stop)).filter
    (fun r => decide (0 < r.segment_offset - r.segment_onset))

/-- Side effect of AnnotationManager.clip_segments on the dataframe passed by
the caller: the two inplace Series.clip calls clamp the onset and offset
columns of every row (the positive-length filter only affects the returned
frame, not the argument). -/
def clip_segments_effect (segments : List SegRow) (start stop : Int) : List SegRow :=
  segments.map (clampSegRow start stop)

theorem mem_clip_segments {r : SegRow} {segments : List SegRow} {start stop : Int}
    (h : r ∈ clip_segments segments start stop) :
    (∃ s ∈ segments, r = clampSegRow start stop s) ∧
      0 < r.segment_offset - r.segment_onset := by
  unfold clip_segments at h
  have h1 := List.mem_filter.mp h
  obtain ⟨s, hs, hr⟩ := List.mem_map.mp h1.1
  refine ⟨⟨s, hs, hr.symm⟩, ?_⟩
  have := h1.2
  simpa using this

/-- Claim C1 (corrected): the claim quantifies over all integer bounds, but
when start exceeds stop, pandas clip reorders the bounds and clamps into the
interval from stop to start, so a row can survive the positive-length filter
with onset below start and offset above stop. Concretely, the table with the
single row (0, 10) clipped with start = 5, stop = 0 yields the surviving row
(0, 5), violating onset at least start and offset at most stop. -/
theorem C1_counterexample :
    ¬ (∀ r ∈ clip_segments [⟨0, 10, "f.rttm", "CHI"⟩] 5 0,
        5 ≤ r.segment_onset ∧ r.segment_offset ≤ 0 ∧
          0 < r.segment_offset - r.segment_onset) := by
  decide

/-- Claim C1 (amended): for every segment table and integer bounds with
start at most stop, every row surviving clip_segments has onset at least
start, offset at most stop, and strictly positive clipped length. -/
theorem C1_clip_bounds (segments : List SegRow) (start stop : Int)
    (h : start ≤ stop) :
    ∀ r ∈ clip_segments segments start stop,
      start ≤ r.segment_onset ∧ r.segment_offset ≤ stop ∧
        0 < r.segment_offset - r.segment_onset := by
  intro r hr
  obtain ⟨⟨s, _, hs⟩, hpos⟩ := mem_clip_segments hr
  have h1 := pdClip_bounds start stop s.segment_onset
  have h2 := pdClip_bounds start stop s.segment_offset
  have hmin : min start stop = start := min_eq_left h
  have hmax : max start stop = stop := max_eq_right h
  subst hs
  simp only [clampSegRow] at hpos ⊢
  omega

theorem C1_clip_bounds_witness :
    (5 : Int) ≤ 20 ∧
      ∀ r ∈ clip_segments [⟨0, 10, "f.rttm", "CHI"⟩, ⟨8, 30, "f.rttm", "FEM"⟩] 5 20,
        5 ≤ r.segment_onset ∧ r.segment_offset ≤ 20 ∧
          0 < r.segment_offset - r.segment_onset :=
  ⟨by decide, C1_clip_bounds [⟨0, 10, "f.rttm", "CHI"⟩, ⟨8, 30, "f.rttm", "FEM"⟩] 5 20 (by decide)⟩

/-- One row of the annotation index (AnnotationManager.INDEX_COLUMNS). The
index columns that the verified operations never inspect individually (such
as filter) together with any extra preserved columns are modelled by the
single field payload. The field position models the column of the same name
added by get_collapsed_segments; it is 0 everywhere else. -/
structure AnnRec where
  set : String
  recording_filename : String
  time_seek : Int
  range_onset : Int
  range_offset : Int
  raw_filename : String
  format : String
  annotation_filename : Option String
  imported_at : Option String
  package_version : Option String
  error : Option String
  payload : String
  position : Int
deriving DecidableEq

/-- Absolute onset of the covered range: range_onset + time_seek. -/
def absOn (r : AnnRec) : Int := r.range_onset + r.time_seek

/-- Absolute offset of the covered range: range_offset + time_seek. -/
def absOff (r : AnnRec) : Int := r.range_offset + r.time_seek

/-- Stable insertion into a sorted list: the new element is placed before the
first element strictly greater than it, hence after every equal element. -/
def insertBy {α : Type} (lt : α → α → Bool) (x : α) : List α → List α
  | [] => [x]
  | y :: ys => if lt x y then x :: y :: ys else y :: insertBy lt x ys

/-- Stable sort (model of pandas sort_values, which uses a stable lexsort for
multi-column keys): elements are inserted left to right, each landing after
the elements its key ties with. -/
def sortBy {α : Type} (lt : α → α → Bool) (l : List α) : List α :=
  l.foldl (fun acc x => insertBy lt x acc) []

theorem mem_insertBy {α : Type} (lt : α → α → Bool) (x a : α) (l : List α) :
    a ∈ insertBy lt x l ↔ a = x ∨ a ∈ l := by
  induction l with
  | nil => simp [insertBy]
  | cons y ys ih =>
      unfold insertBy
      split
      · simp [List.mem_cons]
      · simp [List.mem_cons, ih]
        tauto

theorem mem_sortBy {α : Type} (lt : α → α → Bool) (a : α) (l : List α) :
    a ∈ sortBy lt l ↔ a ∈ l := by
  have key : ∀ (l acc : List α),
      (a ∈ l.foldl (fun acc x => insertBy lt x acc) acc ↔ a ∈ acc ∨ a ∈ l) := by
    intro l
    induction l with
    | nil => simp
    | cons x xs ih =>
        intro acc
        simp only [List.foldl_cons, ih, mem_insertBy, List.mem_cons]
        tauto
  simpa [sortBy] using key l []

/-- First-occurrence deduplication, the order produced by pandas
Series.unique. -/
def uniqueFirst {α : Type} [DecidableEq α] (l : List α) : List α :=
  l.foldl (fun acc x => if x ∈ acc then acc else acc ++ [x]) []

/-- An interval of the algebra layer, ChildProject.utils.Segment: a plain
(start, stop) pair of absolute milliseconds. -/
structure Segment where
  start : Int
  stop : Int
deriving DecidableEq

/-- Sort key for intervals: ascending by start, then by stop. -/
def segLt (a b : Segment) : Bool :=
  decide (a.start < b.start) || (decide (a.start = b.start) && decide (a.stop < b.stop))

/-- Modelled from the spec: ChildProject.utils.intersect_ranges is imported by
annotations.py but utils.py is not among the provided sources. Following the
spec (section 4.1), the intersection of two interval lists is the sorted
sequence of all non-empty overlaps between any interval of the first list and
any interval of the second, each overlap being (max of starts, min of stops),
kept only if it has positive length; touching intervals never count. -/
def intersect_ranges (A B : List Segment) : List Segment :=
  sortBy segLt (A.flatMap (fun a => B.filterMap (fun b =>
    if max a.start b.start < min a.stop b.stop then
      some (Segment.mk (max a.start b.start) (min a.stop b.stop))
    else none)))

/-- functools.reduce(intersect_ranges, lists): left fold with the first list
as the initial accumulator (empty when there is no list at all). -/
def reduceIntersect (ls : List (List Segment)) : List Segment :=
  match ls with
  | [] => []
  | h :: t => t.foldl intersect_ranges h

/-- Sort key used by AnnotationManager.intersection on the per-recording
records: ascending by (abs_range_onset, abs_range_offset). -/
def annAbsLt (a b : AnnRec) : Bool :=
  decide (absOn a < absOn b) || (decide (absOn a = absOn b) && decide (absOff a < absOff b))

/-- The per-recording frame built by AnnotationManager.intersection: records
of the requested sets for one recording, sorted by absolute range. -/
def recSorted (anns : List AnnRec) (sets : List String) (recording : String) : List AnnRec :=
  sortBy annAbsLt ((anns.filter (fun r => decide (r.set ∈ sets))).filter
    (fun r => decide (r.recording_filename = recording)))

/-- The overlap intervals of one recording: the fold of intersect_ranges over
the per-set lists of absolute ranges, in the order of the requested sets. -/
def recOverlaps (anns : List AnnRec) (sets : List String) (recording : String) : List Segment :=
  reduceIntersect (sets.map (fun s =>
    ((recSorted anns sets recording).filter (fun r => decide (r.set = s))).map
      (fun r => Segment.mk (absOn r) (absOff r))))

/-- Clipping of one record to one overlap interval, as performed inside the
segment loop of AnnotationManager.intersection: the absolute bounds are
clipped into the overlap by Series.clip, the record is dropped when the
clipped span has non-positive length, and the surviving bounds are converted
back to time_seek-relative coordinates. -/
def clipToOverlap (seg : Segment) (r : AnnRec) : Option AnnRec :=
  if 0 < pdClip seg.start seg.stop (absOff r) - pdClip seg.start seg.stop (absOn r) then
    some { r with
      range_onset := pdClip seg.start seg.stop (absOn r) - r.time_seek,
      range_offset := pdClip seg.start seg.stop (absOff r) - r.time_seek }
  else none

/-- AnnotationManager.intersection(annotations, sets): per distinct recording
(first-occurrence order, computed before the set restriction), every record
of the requested sets is clipped to every overlap interval common to all the
requested sets, and the survivors are concatenated. -/
def intersection (anns : List AnnRec) (sets : List String) : List AnnRec :=
  (uniqueFirst (anns.map (fun r => r.recording_filename))).flatMap (fun recording =>
    (recOverlaps anns sets recording).flatMap (fun seg =>
      (recSorted anns sets recording).filterMap (clipToOverlap seg)))

/-- Claim C2 (confirmed): every record returned by intersection comes from an
input record of one of the requested sets, with its absolute range clipped
into one of the overlap intervals common to all the requested sets for that
recording, with strictly positive clipped length, and with the clipped bounds
converted back to the time_seek-relative coordinates of the record; when no
recording yields an overlap, the result is empty. -/
theorem C2_intersection_spec (anns : List AnnRec) (sets : List String) :
    (∀ r ∈ intersection anns sets,
      ∃ r0 ∈ anns, r0.set ∈ sets ∧
        ∃ seg ∈ recOverlaps anns sets r0.recording_filename,
          r = { r0 with
                range_onset := pdClip seg.start seg.stop (absOn r0) - r0.time_seek,
                range_offset := pdClip seg.start seg.stop (absOff r0) - r0.time_seek } ∧
          0 < pdClip seg.start seg.stop (absOff r0) - pdClip seg.start seg.stop (absOn r0)) ∧
    ((∀ recording, recOverlaps anns sets recording = []) →
      intersection anns sets = []) := by
  constructor
  · intro r hr
    unfold intersection at hr
    obtain ⟨recording, _, hr⟩ := List.mem_flatMap.mp hr
    obtain ⟨seg, hseg, hr⟩ := List.mem_flatMap.mp hr
    obtain ⟨r0, hr0, hclip⟩ := List.mem_filterMap.mp hr
    have hmem : r0 ∈ anns ∧ r0.set ∈ sets ∧ r0.recording_filename = recording := by
      have h0 := (mem_sortBy _ _ _).mp hr0
      have h1 := List.mem_filter.mp h0
      have h2 := List.mem_filter.mp h1.1
      refine ⟨h2.1, ?_, ?_⟩
      · simpa using h2.2
      · simpa using h1.2
    unfold clipToOverlap at hclip
    split at hclip
    · rename_i hpos
      refine ⟨r0, hmem.1, hmem.2.1, seg, ?_, ?_, hpos⟩
      · rw [hmem.2.2]
        exact hseg
      · exact (Option.some.inj hclip).symm
    · cases hclip
  · intro hov
    unfold intersection
    refine List.flatMap_eq_nil_iff.mpr ?_
    intro recording _
    rw [hov recording]
    rfl

/-- Concrete record used to witness claim C2: set A covers 0..300 ms of rec1. -/
def c2A : AnnRec := ⟨"A", "rec1", 0, 0, 300, "a.rttm", "vtc_rttm", some "a.csv", none, none, none, "", 0⟩

/-- Concrete record used to witness claim C2: set B covers 100..200 ms of rec1
(time_seek 100, range 0..100). -/
def c2B : AnnRec := ⟨"B", "rec1", 100, 0, 100, "b.rttm", "vtc_rttm", some "b.csv", none, none, none, "", 0⟩

theorem C2_intersection_spec_witness :
    (∃ r0 ∈ [c2A, c2B], r0.set ∈ ["A", "B"] ∧
      ∃ seg ∈ recOverlaps [c2A, c2B] ["A", "B"] r0.recording_filename,
        ({ c2A with range_onset := 100, range_offset := 200 } : AnnRec) =
          { r0 with
            range_onset := pdClip seg.start seg.stop (absOn r0) - r0.time_seek,
            range_offset := pdClip seg.start seg.stop (absOff r0) - r0.time_seek } ∧
        0 < pdClip seg.start seg.stop (absOff r0) - pdClip seg.start seg.stop (absOn r0)) ∧
    intersection ([] : List AnnRec) ["A"] = [] :=
  ⟨(C2_intersection_spec [c2A, c2B] ["A", "B"]).1
      { c2A with range_onset := 100, range_offset := 200 } (by decide),
    (C2_intersection_spec [] ["A"]).2 (fun _ => rfl)⟩

/-- Join key of merge_annotations: the merge is performed on exactly the
columns (interval, segment_onset, segment_offset), after both sides have had
their onsets and offsets shifted by their own time_seek. -/
structure MergeKey where
  interval : Nat
  segment_onset : Int
  segment_offset : Int
deriving DecidableEq

/-- One left-side segment row entering the merge of merge_annotations (output
of get_segments on the left annotations): the unshifted segment bounds, the
broadcast record columns consulted by the join (interval, time_seek,
raw_filename), and the values of the left_columns attributes, modelled by the
single field vals (the code treats every attribute column uniformly). -/
structure LeftSeg where
  interval : Nat
  segment_onset : Int
  segment_offset : Int
  time_seek : Int
  raw_filename : String
  vals : String
deriving DecidableEq

/-- One right-side segment row entering the merge. The right selection rc
keeps no time_seek column, but the right time_seek is used to shift the
bounds before joining. -/
structure RightSeg where
  interval : Nat
  segment_onset : Int
  segment_offset : Int
  time_seek : Int
  raw_filename : String
  vals : String
deriving DecidableEq

/-- Shifted join key of a left row. -/
def leftKey (l : LeftSeg) : MergeKey :=
  ⟨l.interval, l.segment_onset + l.time_seek, l.segment_offset + l.time_seek⟩

/-- Shifted join key of a right row. -/
def rightKey (r : RightSeg) : MergeKey :=
  ⟨r.interval, r.segment_onset + r.time_seek, r.segment_offset + r.time_seek⟩

/-- One row of the pandas full outer join: the join key, and the two sides
as present (matched) or missing (the NaN half of an unmatched row). -/
structure MergedRow where
  key : MergeKey
  left : Option LeftSeg
  right : Option RightSeg
deriving DecidableEq

/-- pandas merge with how=outer on the key columns: every left row paired
with every right row of equal key (in order), left rows without a match kept
with a missing right half, and right rows without a match appended at the end
with a missing left half. -/
def outerMerge (L : List LeftSeg) (R : List RightSeg) : List MergedRow :=
  (L.flatMap (fun l =>
    if (R.filter (fun r => decide (rightKey r = leftKey l))).isEmpty then
      [⟨leftKey l, some l, none⟩]
    else
      (R.filter (fun r => decide (rightKey r = leftKey l))).map
        (fun r => ⟨leftKey l, some l, some r⟩)))
  ++ ((R.filter (fun r => !(L.any (fun l => decide (leftKey l = rightKey r))))).map
      (fun r => ⟨rightKey r, none, some r⟩))

/-- One row of the final merged segment table written by merge_annotations. -/
structure OutRow where
  interval : Nat
  segment_onset : Int
  segment_offset : Int
  raw_filename : String
  leftVals : String
  rightVals : String
deriving DecidableEq

/-- Post-processing of one joined row, following merge_annotations lines
457 to 475: segment bounds are the joined absolute bounds minus the left
time_seek, with the missing result of the subtraction filled with 0 before
integer conversion (the time_seek column exists only on the left side);
raw_filename is the comma join of the two raw filenames with missing values
filled by the empty string; every remaining missing attribute value is filled
with the string NA. -/
def finalizeRow (m : MergedRow) : OutRow :=
  { interval := m.key.interval
    segment_onset :=
      match m.left with
      | some l => m.key.segment_onset - l.time_seek
      | none => 0
    segment_offset :=
      match m.left with
      | some l => m.key.segment_offset - l.time_seek
      | none => 0
    raw_filename :=
      (match m.left with | some l => l.raw_filename | none => "") ++ "," ++
        (match m.right with | some r => r.raw_filename | none => "")
    leftVals := match m.left with | some l => l.vals | none => "NA"
    rightVals := match m.right with | some r => r.vals | none => "NA" }

/-- The segment-joining core of AnnotationManager.merge_annotations: shift
both sides by their time_seek, full outer join on (interval, segment_onset,
segment_offset), then post-process each joined row. -/
def merge_annotations_join (L : List LeftSeg) (R : List RightSeg) : List OutRow :=
  (outerMerge L R).map finalizeRow

theorem mem_outerMerge_of_disjoint {L : List LeftSeg} {R : List RightSeg}
    (hdisj : ∀ l ∈ L, ∀ r ∈ R, leftKey l ≠ rightKey r) :
    ∀ m ∈ outerMerge L R,
      (m.left = none ∧ ∃ r ∈ R, m = ⟨rightKey r, none, some r⟩) ∨
      (m.right = none ∧ ∃ l ∈ L, m = ⟨leftKey l, some l, none⟩) := by
  intro m hm
  rcases List.mem_append.mp hm with hm | hm
  · obtain ⟨l, hl, hm⟩ := List.mem_flatMap.mp hm
    have hempty : R.filter (fun r => decide (rightKey r = leftKey l)) = [] := by
      refine List.filter_eq_nil_iff.mpr ?_
      intro r hr
      simp only [decide_eq_true_eq]
      exact fun h => hdisj l hl r hr h.symm
    rw [hempty] at hm
    simp only [List.isEmpty_nil, if_true] at hm
    have : m = ⟨leftKey l, some l, none⟩ := by simpa using hm
    exact Or.inr ⟨by rw [this], l, hl, this⟩
  · obtain ⟨r, hr, hm⟩ := List.mem_map.mp hm
    have hrR : r ∈ R := (List.mem_filter.mp hr).1
    exact Or.inl ⟨by rw [← hm], r, hrR, hm.symm⟩

theorem mem_outerMerge_of_matched {L : List LeftSeg} {R : List RightSeg}
    (hl : ∀ l ∈ L, ∃ r ∈ R, rightKey r = leftKey l)
    (hr : ∀ r ∈ R, ∃ l ∈ L, leftKey l = rightKey r) :
    ∀ m ∈ outerMerge L R,
      ∃ l ∈ L, ∃ r ∈ R, rightKey r = leftKey l ∧ m = ⟨leftKey l, some l, some r⟩ := by
  intro m hm
  rcases List.mem_append.mp hm with hm | hm
  · obtain ⟨l, hlL, hm⟩ := List.mem_flatMap.mp hm
    have hne : ¬ (R.filter (fun r => decide (rightKey r = leftKey l))).isEmpty = true := by
      obtain ⟨r, hrR, hkey⟩ := hl l hlL
      intro habs
      rw [List.isEmpty_iff] at habs
      have : r ∈ R.filter (fun r => decide (rightKey r = leftKey l)) :=
        List.mem_filter.mpr ⟨hrR, by simpa using hkey⟩
      rw [habs] at this
      cases this
    rw [if_neg hne] at hm
    obtain ⟨r, hrf, hm⟩ := List.mem_map.mp hm
    have h1 := List.mem_filter.mp hrf
    exact ⟨l, hlL, r, h1.1, by simpa using h1.2, hm.symm⟩
  · obtain ⟨r, hrf, _⟩ := List.mem_map.mp hm
    have h1 := List.mem_filter.mp hrf
    obtain ⟨l, hlL, hkey⟩ := hr r h1.1
    exfalso
    have h2 := h1.2
    simp only [Bool.not_eq_eq_eq_not, Bool.not_true, List.any_eq_false,
      decide_eq_false_iff_not] at h2
    exact h2 l hlL (by simp [hkey])

/-- Claim C3 (confirmed): the merge joins left and right segment tables by
full outer join on exactly (interval, segment_onset, segment_offset) after
shifting both sides by their time_seek. If no left key equals a right key,
every output row is unmatched and carries the other side attribute columns as
the NA sentinel; if the two sides have identical boundaries, every output row
is populated from both sides and no attribute value is the fill sentinel. -/
theorem C3_merge_boundary_exact :
    (∀ (L : List LeftSeg) (R : List RightSeg),
      (∀ l ∈ L, ∀ r ∈ R, leftKey l ≠ rightKey r) →
      ∀ row ∈ merge_annotations_join L R,
        row.leftVals = "NA" ∨ row.rightVals = "NA") ∧
    (∀ (L : List LeftSeg) (R : List RightSeg),
      (∀ l ∈ L, ∃ r ∈ R, rightKey r = leftKey l) →
      (∀ r ∈ R, ∃ l ∈ L, leftKey l = rightKey r) →
      (∀ l ∈ L, l.vals ≠ "NA") →
      (∀ r ∈ R, r.vals ≠ "NA") →
      ∀ row ∈ merge_annotations_join L R,
        (∃ l ∈ L, ∃ r ∈ R, rightKey r = leftKey l ∧
          row = finalizeRow ⟨leftKey l, some l, some r⟩ ∧
          row.leftVals = l.vals ∧ row.rightVals = r.vals) ∧
        row.leftVals ≠ "NA" ∧ row.rightVals ≠ "NA") := by
  constructor
  · intro L R hdisj row hrow
    obtain ⟨m, hm, hrowm⟩ := List.mem_map.mp hrow
    rcases mem_outerMerge_of_disjoint hdisj m hm with ⟨hnone, _⟩ | ⟨hnone, _⟩
    · left
      rw [← hrowm]
      simp [finalizeRow, hnone]
    · right
      rw [← hrowm]
      simp [finalizeRow, hnone]
  · intro L R hl hr hlv hrv row hrow
    obtain ⟨m, hm, hrowm⟩ := List.mem_map.mp hrow
    obtain ⟨l, hlL, r, hrR, hkey, hmeq⟩ := mem_outerMerge_of_matched hl hr m hm
    subst hrowm
    subst hmeq
    exact ⟨⟨l, hlL, r, hrR, hkey, rfl, rfl, rfl⟩, hlv l hlL, hrv r hrR⟩

/-- Left row used in the C3 witness, shifted key (0, 15, 25). -/
def c3L1 : LeftSeg := ⟨0, 10, 20, 5, "l.rttm", "CHI"⟩

/-- Right row used in the C3 witness, shifted key (0, 17, 27). -/
def c3R1 : RightSeg := ⟨0, 10, 20, 7, "r.rttm", "FEM"⟩

/-- Left row used in the C3 witness, shifted key (1, 15, 25). -/
def c3L2 : LeftSeg := ⟨1, 10, 20, 5, "l.rttm", "CHI"⟩

/-- Right row used in the C3 witness, shifted key (1, 15, 25). -/
def c3R2 : RightSeg := ⟨1, 15, 25, 0, "r.rttm", "FEM"⟩

theorem C3_merge_boundary_exact_witness :
    (∀ row ∈ merge_annotations_join [c3L1] [c3R1],
      row.leftVals = "NA" ∨ row.rightVals = "NA") ∧
    (∀ row ∈ merge_annotations_join [c3L2] [c3R2],
      (∃ l ∈ [c3L2], ∃ r ∈ [c3R2], rightKey r = leftKey l ∧
        row = finalizeRow ⟨leftKey l, some l, some r⟩ ∧
        row.leftVals = l.vals ∧ row.rightVals = r.vals) ∧
      row.leftVals ≠ "NA" ∧ row.rightVals ≠ "NA") :=
  ⟨C3_merge_boundary_exact.1 [c3L1] [c3R1] (by decide),
   C3_merge_boundary_exact.2 [c3L2] [c3R2] (by decide) (by decide) (by decide) (by decide)⟩

/-- Left row used in the C10 witness, shifted key (0, 15, 25). -/
def c10L : LeftSeg := ⟨0, 10, 20, 5, "l.rttm", "CHI"⟩

/-- Right row used in the C10 witness, shifted key (2, 33, 43): it matches no
left row, so the join keeps it with a missing left half. -/
def c10R : RightSeg := ⟨2, 30, 40, 3, "r.rttm", "MAL"⟩

/-- Claim C10 (confirmed): in the merge output, every joined row whose left
half is missing (a segment matched only on the right side) has its final
segment_onset and segment_offset equal to 0, because the subtraction of the
missing left time_seek is filled with 0 before the integer conversion. -/
theorem C10_right_only_zero (L : List LeftSeg) (R : List RightSeg) :
    ∀ m ∈ outerMerge L R, m.left = none →
      (finalizeRow m).segment_onset = 0 ∧ (finalizeRow m).segment_offset = 0 := by
  intro m _ hnone
  simp [finalizeRow, hnone]

theorem C10_right_only_zero_witness :
    (MergedRow.mk (rightKey c10R) none (some c10R)) ∈ outerMerge [c10L] [c10R] ∧
      (finalizeRow ⟨rightKey c10R, none, some c10R⟩).segment_onset = 0 ∧
      (finalizeRow ⟨rightKey c10R, none, some c10R⟩).segment_offset = 0 :=
  ⟨by decide,
   C10_right_only_zero [c10L] [c10R] ⟨rightKey c10R, none, some c10R⟩ (by decide) rfl⟩

/-- Lexicographic comparison of character lists (by code point), used to
model the ordering pandas applies to string columns. -/
def charListLt : List Char → List Char → Bool
  | [], [] => false
  | [], _ :: _ => true
  | _ :: _, [] => false
  | c :: cs, d :: ds =>
      if c.toNat < d.toNat then true
      else if d.toNat < c.toNat then false
      else charListLt cs ds

/-- Strict ordering on strings by code points. -/
def strLtB (a b : String) : Bool := charListLt a.data b.data

/-- Sort key of the converted segments in _import_annotation: ascending
(segment_onset, segment_offset), with the speaker_type column (part of the
field attrs here) as tertiary key when present. -/
def segRowLt (a b : SegRow) : Bool :=
  decide (a.segment_onset < b.segment_onset) ||
    (decide (a.segment_onset = b.segment_onset) &&
      (decide (a.segment_offset < b.segment_offset) ||
        (decide (a.segment_offset = b.segment_offset) && strLtB a.attrs b.attrs)))

/-- os.path.splitext stem: the filename without its last dot extension (the
sources only apply it to plain filenames, so directory corner cases of
os.path are not relevant). -/
def splitextStem (s : String) : String :=
  if (s.splitOn ".").length ≤ 1 then s
  else String.intercalate "." (s.splitOn ".").dropLast

/-- Output filename derived by _import_annotation (and identically by
merge_annotations): stem of the recording filename, time_seek and
range_onset, joined by underscores, with a csv extension. -/
def mkAnnotationFilename (r : AnnRec) : String :=
  splitextStem r.recording_filename ++ "_" ++ toString r.time_seek ++ "_" ++
    toString r.range_onset ++ ".csv"

/-- Outcome of the converter call guarded by the try block of
AnnotationManager._import_annotation: either an exception carrying its
traceback text, or a normal return whose value may not be a dataframe (none
models a non-dataframe result such as Python None from a custom
import_function; some df models a returned dataframe). -/
inductive ConvResult
  | exc (msg : String)
  | ret (df : Option (List SegRow))
deriving DecidableEq

/-- AnnotationManager._import_annotation for a single unit. An exception
inside the try block sets the error field and leaves everything else alone
(df stays missing, so no file is written and no filename is stamped). A
non-dataframe return leaves the record completely untouched. On success the
segments receive the record raw_filename, are clipped to the covered range
and sorted, the file content is produced, and the record is stamped with the
derived output filename, the import timestamp and the package version.
The second component of the result is the converted file written for the
unit (none when nothing is written). -/
def import_annotation_unit (now version : String) (conv : ConvResult)
    (ann : AnnRec) : AnnRec × Option (List SegRow) :=
  match conv with
  | ConvResult.exc msg => ({ ann with error := some msg }, none)
  | ConvResult.ret none => (ann, none)
  | ConvResult.ret (some df) =>
      ({ ann with annotation_filename := some (mkAnnotationFilename ann),
                  imported_at := some now,
                  package_version := some version },
        some (sortBy segRowLt
          (clip_segments (df.map (fun s => { s with raw_filename := ann.raw_filename }))
            ann.range_onset ann.range_offset)))

/-- Execution mode of an import batch: strictly serial (DataFrame.apply) or
dispatched across a multiprocessing pool. -/
inductive ExecMode
  | serial
  | pooled
deriving DecidableEq

/-- The missing_recordings check of import_annotations: recordings referenced
by the batch but absent from the project metadata. -/
def missing_recordings (knownRecordings : List String) (input : List AnnRec) : List String :=
  (input.filter (fun r => !(decide (r.recording_filename ∈ knownRecordings)))).map
    (fun r => r.recording_filename)

/-- The global thread-safety test of import_annotations: among the batch rows
whose format appears in the is_thread_safe registry (modelled as a partial
map, converters.py not being among the provided sources), all must be flagged
safe. Rows with unregistered formats contribute nothing, and the
caller-supplied import function is not consulted at all. -/
def batchThreadSafe (registry : String → Option Bool) (input : List AnnRec) : Bool :=
  (input.filter (fun r => (registry r.format).isSome)).all
    (fun r => (registry r.format).getD false)

/-- Control flow of AnnotationManager.import_annotations: reject a batch
referencing unknown recordings; force threads to 1 when some registered
format of the batch is flagged unsafe; run serially when the resulting thread
count is 1 and through a pool otherwise (both paths map the same per-unit
function over the batch in order). Returns the chosen mode and the per-unit
results (updated record and written file content). -/
def import_annotations (registry : String → Option Bool)
    (knownRecordings : List String) (now version : String)
    (conv : AnnRec → ConvResult) (threads : Int) (input : List AnnRec) :
    Except (List String) (ExecMode × List (AnnRec × Option (List SegRow))) :=
  if (missing_recordings knownRecordings input).isEmpty then
    Except.ok
      (if (if batchThreadSafe registry input then threads else (1 : Int)) = 1 then
          ExecMode.serial
        else ExecMode.pooled,
        input.map (fun r => import_annotation_unit now version (conv r) r))
  else Except.error (missing_recordings knownRecordings input)

theorem missing_recordings_empty {knownRecordings : List String} {input : List AnnRec}
    (h : ∀ r ∈ input, r.recording_filename ∈ knownRecordings) :
    missing_recordings knownRecordings input = [] := by
  unfold missing_recordings
  have : input.filter (fun r => !(decide (r.recording_filename ∈ knownRecordings))) = [] := by
    refine List.filter_eq_nil_iff.mpr ?_
    intro r hr
    simp [h r hr]
  rw [this]
  rfl

/-- Claim C9 (confirmed): when the conversion returns normally but its result
is not a dataframe, _import_annotation returns the record completely
unchanged (no error, no annotation_filename) and writes no segment file, so
the unit is recorded neither as a success nor as a failure. -/
theorem C9_non_dataframe_unchanged (now version : String) (ann : AnnRec) :
    import_annotation_unit now version (ConvResult.ret none) ann = (ann, none) := rfl

/-- Claim C4 (confirmed): under the batch precondition (no unknown
recording), import_annotations maps every unit of the batch through
_import_annotation independently, and a unit whose conversion raises is
returned with the diagnostic text in its error field, with no written
segment file, and with no annotation_filename (given that the input record
had none), while every other unit is still processed. -/
theorem C4_import_isolation (registry : String → Option Bool)
    (knownRecordings : List String) (now version : String)
    (conv : AnnRec → ConvResult) (threads : Int) (input : List AnnRec)
    (h : ∀ r ∈ input, r.recording_filename ∈ knownRecordings) :
    ∃ mode,
      import_annotations registry knownRecordings now version conv threads input =
        Except.ok (mode, input.map (fun r => import_annotation_unit now version (conv r) r)) ∧
      ∀ r ∈ input, ∀ msg, conv r = ConvResult.exc msg →
        (import_annotation_unit now version (conv r) r).1.error = some msg ∧
        (import_annotation_unit now version (conv r) r).2 = none ∧
        (r.annotation_filename = none →
          (import_annotation_unit now version (conv r) r).1.annotation_filename = none) := by
  refine ⟨if (if batchThreadSafe registry input then threads else (1 : Int)) = 1 then
      ExecMode.serial else ExecMode.pooled, ?_, ?_⟩
  · unfold import_annotations
    rw [missing_recordings_empty h]
    rfl
  · intro r _ msg hconv
    rw [hconv]
    exact ⟨rfl, rfl, fun hnone => hnone⟩

/-- Record imported successfully in the C4 witness batch. -/
def c4ok : AnnRec := ⟨"vtc", "rec1.wav", 0, 0, 100, "a.rttm", "vtc_rttm", none, none, none, none, "", 0⟩

/-- Record whose conversion fails in the C4 witness batch. -/
def c4bad : AnnRec := ⟨"bad", "rec2.wav", 0, 0, 100, "b.xyz", "xyz", none, none, none, none, "", 0⟩

/-- Converter outcomes of the C4 witness batch: the record of set bad raises,
every other one returns a one-row dataframe. -/
def c4conv : AnnRec → ConvResult := fun r =>
  if r.set = "bad" then ConvResult.exc "ValueError: file format xyz unknown"
  else ConvResult.ret (some [⟨10, 50, "", "CHI"⟩])

/-- Registry of the C4 witness: vtc_rttm registered and flagged safe. -/
def c4registry : String → Option Bool := fun f => if f = "vtc_rttm" then some true else none

theorem C4_import_isolation_witness :
    ∃ mode,
      import_annotations c4registry ["rec1.wav", "rec2.wav"] "2021-01-01 00:00:00" "0.0.1"
          c4conv (-1) [c4ok, c4bad] =
        Except.ok (mode, [c4ok, c4bad].map
          (fun r => import_annotation_unit "2021-01-01 00:00:00" "0.0.1" (c4conv r) r)) ∧
      ∀ r ∈ [c4ok, c4bad], ∀ msg, c4conv r = ConvResult.exc msg →
        (import_annotation_unit "2021-01-01 00:00:00" "0.0.1" (c4conv r) r).1.error = some msg ∧
        (import_annotation_unit "2021-01-01 00:00:00" "0.0.1" (c4conv r) r).2 = none ∧
        (r.annotation_filename = none →
          (import_annotation_unit "2021-01-01 00:00:00" "0.0.1" (c4conv r) r).1.annotation_filename = none) :=
  C4_import_isolation c4registry ["rec1.wav", "rec2.wav"] "2021-01-01 00:00:00" "0.0.1"
    c4conv (-1) [c4ok, c4bad] (by decide)

/-- Registry of the C6 counterexample: only TextGrid is registered (safe);
the format xyz of the batch is absent from the registry. -/
def c6Registry : String → Option Bool := fun f => if f = "TextGrid" then some true else none

/-- Batch record of the C6 counterexample, of unregistered format xyz. -/
def c6Rec : AnnRec := ⟨"A", "rec1.wav", 0, 0, 100, "a.xyz", "xyz", none, none, none, none, "", 0⟩

/-- Claim C6 (corrected), counterexample: a batch containing a format that is
absent from the thread-safety registry (hence not flagged thread/process
safe) is nevertheless dispatched to the worker pool when threads is the
default -1, because the safety test only consults formats present in the
registry; likewise a caller-supplied import function is not consulted by the
decision rather than being assumed unsafe. -/
theorem C6_counterexample :
    import_annotations c6Registry ["rec1.wav"] "t" "v" (fun _ => ConvResult.ret none) (-1)
        [c6Rec] = Except.ok (ExecMode.pooled, [(c6Rec, none)]) ∧
      ¬ c6Registry c6Rec.format = some true := by
  constructor
  · rfl
  · decide

/-- Claim C6 (amended): the execution mode is decided once for the whole
batch: the batch runs serially exactly when the caller passed threads = 1 or
some record of the batch has a format that is registered in the thread-safety
registry and flagged unsafe; otherwise the whole batch is dispatched to the
pool. Formats absent from the registry and the caller-supplied conversion
function do not influence the decision. -/
theorem C6_global_mode (registry : String → Option Bool)
    (knownRecordings : List String) (now version : String)
    (conv : AnnRec → ConvResult) (threads : Int) (input : List AnnRec)
    (h : ∀ r ∈ input, r.recording_filename ∈ knownRecordings) :
    ∃ mode,
      import_annotations registry knownRecordings now version conv threads input =
        Except.ok (mode, input.map (fun r => import_annotation_unit now version (conv r) r)) ∧
      (mode = ExecMode.serial ↔
        threads = 1 ∨ ∃ r ∈ input, registry r.format = some false) := by
  refine ⟨if (if batchThreadSafe registry input then threads else (1 : Int)) = 1 then
      ExecMode.serial else ExecMode.pooled, ?_, ?_⟩
  · unfold import_annotations
    rw [missing_recordings_empty h]
    rfl
  · constructor
    · intro hmode
      by_cases hsafe : batchThreadSafe registry input = true
      · rw [if_pos hsafe] at hmode
        by_cases ht : threads = 1
        · exact Or.inl ht
        · rw [if_neg ht] at hmode
          cases hmode
      · right
        have hsafe' : batchThreadSafe registry input = false := by
          cases hb : batchThreadSafe registry input
          · rfl
          · exact absurd hb hsafe
        unfold batchThreadSafe at hsafe'
        obtain ⟨r, hrf, hflag⟩ := List.all_eq_false.mp hsafe'
        have h1 := List.mem_filter.mp hrf
        refine ⟨r, h1.1, ?_⟩
        cases hreg : registry r.format with
        | none => rw [hreg] at h1; simp at h1
        | some b =>
            rw [hreg] at hflag
            cases b
            · rfl
            · simp at hflag
    · intro hor
      rcases hor with ht | ⟨r, hr, hfalse⟩
      · by_cases hsafe : batchThreadSafe registry input = true
        · rw [if_pos hsafe, if_pos ht]
        · rw [if_neg hsafe]
          simp
      · have hsafe' : batchThreadSafe registry input = false := by
          unfold batchThreadSafe
          refine List.all_eq_false.mpr ⟨r, ?_, ?_⟩
          · exact List.mem_filter.mpr ⟨hr, by simp [hfalse]⟩
          · simp [hfalse]
        simp [hsafe']

theorem C6_global_mode_witness :
    ∃ mode,
      import_annotations c6Registry ["rec1.wav"] "t" "v" (fun _ => ConvResult.ret none) (-1)
          [c6Rec] =
        Except.ok (mode, [c6Rec].map
          (fun r => import_annotation_unit "t" "v" ((fun _ => ConvResult.ret none) r) r)) ∧
      (mode = ExecMode.serial ↔
        (-1 : Int) = 1 ∨ ∃ r ∈ [c6Rec], c6Registry r.format = some false) :=
  C6_global_mode c6Registry ["rec1.wav"] "t" "v" (fun _ => ConvResult.ret none) (-1)
    [c6Rec] (by decide)

/-- AnnotationManager.SEGMENTS_COLUMNS: the declared segment schema, each
column with its required flag. -/
def SEGMENTS_COLUMNS : List (String × Bool) :=
  [("raw_filename", true), ("segment_onset", true), ("segment_offset", true),
   ("speaker_id", false), ("speaker_type", false), ("ling_type", false),
   ("vcm_type", false), ("lex_type", false), ("mwu_type", false),
   ("addressee", false), ("transcription", false), ("phonemes", false),
   ("syllables", false), ("words", false), ("lena_block_type", false),
   ("lena_block_number", false), ("lena_conv_status", false),
   ("lena_response_count", false), ("lena_conv_floor_type", false),
   ("lena_conv_turn_type", false), ("utterances_count", false),
   ("utterances_length", false), ("non_speech_length", false),
   ("average_db", false), ("peak_db", false), ("child_cry_vfx_len", false),
   ("utterances", false), ("cries", false), ("vfxs", false)]

/-- Names of the required segment columns. -/
def requiredSegmentCols : List String :=
  (SEGMENTS_COLUMNS.filter (fun c => c.2)).map (fun c => c.1)

/-- Columns of the empty fallback frame returned by get_segments when no
group produces rows: the union of the required segment columns and the
columns of the input record frame (annCols). -/
def get_segments_fallback_columns (annCols : List String) : List String :=
  uniqueFirst (requiredSegmentCols ++ annCols)

/-- Group key of get_segments: (set, annotation_filename). -/
def groupKey (r : AnnRec) : String × String := (r.set, r.annotation_filename.getD "")

/-- Ordering of group keys (pandas groupby sorts its keys). -/
def keyLt (a b : String × String) : Bool :=
  strLtB a.1 b.1 || (decide (a.1 = b.1) && strLtB a.2 b.2)

/-- One output row of get_segments: a segment row of the converted file with
every column of the owning record broadcast onto it (the record raw_filename
column having been dropped beforehand, the row keeps its own raw_filename). -/
structure OutSeg where
  seg : SegRow
  ann : AnnRec
deriving DecidableEq

/-- One iteration of the record loop of get_segments on the state (current
frame, accumulated output): clip_segments returns the positive-length view of
the clamped frame, which is broadcast and appended, and its in-place clamping
replaces the frame seen by the following records of the group. -/
def groupStep (st : List SegRow × List OutSeg) (rec : AnnRec) :
    List SegRow × List OutSeg :=
  (clip_segments_effect st.1 rec.range_onset rec.range_offset,
    st.2 ++ (clip_segments st.1 rec.range_onset rec.range_offset).map
      (fun s => OutSeg.mk s rec))

/-- Processing of one (set, annotation_filename) group of get_segments: the
converted file df is loaded once and the group records fold over it. -/
def processGroup (recs : List AnnRec) (df : List SegRow) : List OutSeg :=
  (recs.foldl groupStep (df, [])).2

/-- AnnotationManager.get_segments: drop the records without a converted
file, group by (set, annotation_filename) with sorted keys, process each
group against its file loaded once, and concatenate. -/
def get_segments (readFile : String → String → List SegRow) (anns : List AnnRec) :
    List OutSeg :=
  (sortBy keyLt (uniqueFirst
      ((anns.filter (fun r => r.annotation_filename.isSome)).map groupKey))).flatMap
    (fun k =>
      processGroup
        ((anns.filter (fun r => r.annotation_filename.isSome)).filter
          (fun r => decide (groupKey r = k)))
        (readFile k.1 k.2))

/-- Sequential characterization of one group: the first record receives the
positive-length view of the file clipped to its own range, and the remaining
records see the file as already clamped by that first clip (and so on
recursively); the clamping side effects accumulate across the group. -/
def seqViews (df : List SegRow) : List AnnRec → List OutSeg
  | [] => []
  | rec :: recs =>
      (clip_segments df rec.range_onset rec.range_offset).map (fun s => OutSeg.mk s rec) ++
        seqViews (clip_segments_effect df rec.range_onset rec.range_offset) recs

theorem foldl_groupStep_acc (recs : List AnnRec) :
    ∀ (df : List SegRow) (acc : List OutSeg),
      (recs.foldl groupStep (df, acc)).2 = acc ++ (recs.foldl groupStep (df, [])).2 := by
  induction recs with
  | nil => intro df acc; simp
  | cons rec recs ih =>
      intro df acc
      simp only [List.foldl_cons, groupStep]
      rw [ih, ih (clip_segments_effect df rec.range_onset rec.range_offset)
        ([] ++ (clip_segments df rec.range_onset rec.range_offset).map
          (fun s => OutSeg.mk s rec))]
      simp

theorem processGroup_eq_seqViews (recs : List AnnRec) :
    ∀ df : List SegRow, processGroup recs df = seqViews df recs := by
  induction recs with
  | nil => intro df; rfl
  | cons rec recs ih =>
      intro df
      unfold processGroup seqViews
      simp only [List.foldl_cons, groupStep]
      rw [foldl_groupStep_acc]
      have h2 := ih (clip_segments_effect df rec.range_onset rec.range_offset)
      unfold processGroup at h2
      rw [h2]
      simp

theorem mem_uniqueFirst {α : Type} [DecidableEq α] (a : α) (l : List α) :
    a ∈ uniqueFirst l ↔ a ∈ l := by
  have key : ∀ (l acc : List α),
      (a ∈ l.foldl (fun acc x => if x ∈ acc then acc else acc ++ [x]) acc ↔
        a ∈ acc ∨ a ∈ l) := by
    intro l
    induction l with
    | nil => simp
    | cons x xs ih =>
        intro acc
        simp only [List.foldl_cons]
        rw [ih]
        by_cases hx : x ∈ acc
        · rw [if_pos hx]
          simp only [List.mem_cons]
          constructor
          · tauto
          · rintro (h | h | h)
            · exact Or.inl h
            · exact Or.inl (h ▸ hx)
            · exact Or.inr h
        · rw [if_neg hx]
          simp only [List.mem_append, List.mem_cons, List.mem_singleton]
          tauto
  simpa [uniqueFirst] using key l []

/-- File contents used in the C5 counterexample: one segment covering
0..1000 ms. -/
def c5read : String → String → List SegRow := fun _ _ => [⟨0, 1000, "f.rttm", "CHI"⟩]

/-- First record of the C5 counterexample group: covered range 0..100. -/
def c5r1 : AnnRec :=
  ⟨"A", "rec1.wav", 0, 0, 100, "a.rttm", "vtc_rttm", some "x.csv", none, none, none, "", 0⟩

/-- Second record of the C5 counterexample group, referencing the same
converted file with covered range 0..1000. -/
def c5r2 : AnnRec :=
  ⟨"A", "rec1.wav", 0, 0, 1000, "a.rttm", "vtc_rttm", some "x.csv", none, none, none, "", 0⟩

/-- Claim C5 (corrected), counterexample: because clip_segments clamps the
loaded frame in place, the view produced for the second record referencing
the same file is clipped through the first record bounds: with the file
segment 0..1000, a first record covering 0..100 and a second covering
0..1000, the second record view is the 0..100 row instead of the independent
0..1000 row the claim requires. -/
theorem C5_counterexample :
    ¬ ((get_segments c5read [c5r1, c5r2]).filter (fun o => decide (o.ann = c5r2)) =
        (clip_segments (c5read "A" "x.csv") c5r2.range_onset c5r2.range_offset).map
          (fun s => OutSeg.mk s c5r2)) := by
  decide

/-- Claim C5 (amended): get_segments loads each distinct converted file once
per (set, annotation_filename) group, and the records of a group are served
in order with the clamping side effect of clip_segments accumulating: each
record receives the positive-length view of the file as clamped by all
previous records of the group and its own range (so a later view is in
general affected by earlier clips); when no group yields rows the empty
fallback frame carries at least the required segment columns. -/
theorem C5_group_views (readFile : String → String → List SegRow) (anns : List AnnRec) :
    (get_segments readFile anns =
      (sortBy keyLt (uniqueFirst
          ((anns.filter (fun r => r.annotation_filename.isSome)).map groupKey))).flatMap
        (fun k =>
          seqViews (readFile k.1 k.2)
            ((anns.filter (fun r => r.annotation_filename.isSome)).filter
              (fun r => decide (groupKey r = k))))) ∧
    (∀ annCols : List String, ∀ c ∈ requiredSegmentCols,
      c ∈ get_segments_fallback_columns annCols) := by
  constructor
  · unfold get_segments
    simp only [processGroup_eq_seqViews]
  · intro annCols c hc
    unfold get_segments_fallback_columns
    exact (mem_uniqueFirst c _).mpr (List.mem_append.mpr (Or.inl hc))

theorem C5_group_views_witness :
    (get_segments c5read [c5r1, c5r2] =
      (sortBy keyLt (uniqueFirst
          (([c5r1, c5r2].filter (fun r => r.annotation_filename.isSome)).map groupKey))).flatMap
        (fun k =>
          seqViews (c5read k.1 k.2)
            (([c5r1, c5r2].filter (fun r => r.annotation_filename.isSome)).filter
              (fun r => decide (groupKey r = k))))) ∧
      "raw_filename" ∈ get_segments_fallback_columns ["set", "recording_filename"] :=
  ⟨(C5_group_views c5read [c5r1, c5r2]).1,
   (C5_group_views c5read [c5r1, c5r2]).2 ["set", "recording_filename"] "raw_filename"
     (by decide)⟩

/-- Sort key of get_collapsed_segments: ascending
(recording_filename, abs_range_onset, abs_range_offset, set). -/
def collapseLt (a b : AnnRec) : Bool :=
  strLtB a.recording_filename b.recording_filename ||
    (decide (a.recording_filename = b.recording_filename) &&
      (decide (absOn a < absOn b) ||
        (decide (absOn a = absOn b) &&
          (decide (absOff a < absOff b) ||
            (decide (absOff a = absOff b) && strLtB a.set b.set)))))

/-- Duration of the covered range, range_offset - range_onset (the code casts
it to float only so that the shifted cumulative sum can hold a NaN; the
values themselves are integers). -/
def duration (r : AnnRec) : Int := r.range_offset - r.range_onset

/-- The groupby(set).cumsum / shift(1) / fillna(0) position assignment of
get_collapsed_segments: walking the sorted records while keeping one running
total per set, each record receives the total accumulated for its set before
itself. -/
def assignPositions (acc : String → Int) : List AnnRec → List AnnRec
  | [] => []
  | r :: rs =>
      { r with position := acc r.set } ::
        assignPositions (fun s => if s = r.set then acc s + duration r else acc s) rs

/-- AnnotationManager.get_collapsed_segments: sort the records, assign
positions, retrieve all segments, and shift every retrieved segment onset and
offset by position - range_onset of its owning record. -/
def get_collapsed_segments (readFile : String → String → List SegRow)
    (anns : List AnnRec) : List OutSeg :=
  (get_segments readFile (assignPositions (fun _ => 0) (sortBy collapseLt anns))).map
    (fun o =>
      { o with seg := { o.seg with
          segment_onset := o.seg.segment_onset + o.ann.position - o.ann.range_onset,
          segment_offset := o.seg.segment_offset + o.ann.position - o.ann.range_onset } })

theorem assignPositions_spec (l : List AnnRec) :
    ∀ (acc : String → Int) (pre : List AnnRec) (r : AnnRec) (post : List AnnRec),
      assignPositions acc l = pre ++ r :: post →
      r.position = acc r.set +
        ((pre.filter (fun q => decide (q.set = r.set))).map duration).sum := by
  induction l with
  | nil =>
      intro acc pre r post h
      cases pre <;> simp [assignPositions] at h
  | cons x xs ih =>
      intro acc pre r post h
      unfold assignPositions at h
      cases pre with
      | nil =>
          simp only [List.nil_append, List.cons.injEq] at h
          rw [← h.1]
          simp
      | cons p pre' =>
          simp only [List.cons_append, List.cons.injEq] at h
          obtain ⟨hp, htail⟩ := h
          subst hp
          rw [ih _ pre' r post htail]
          by_cases hset : r.set = x.set
          · simp [hset, duration, List.filter_cons]
            ring
          · have hset' : ¬ (x.set = r.set) := fun hh => hset hh.symm
            simp [hset, hset', List.filter_cons]

/-- Claim C8 (confirmed): after sorting by (recording_filename, abs onset,
abs offset, set), each record position equals the sum of the durations of the
records of the same set that precede it in that order (0 for the first record
of a set, since the accumulator starts at 0); and every segment retrieved by
get_collapsed_segments is the corresponding get_segments row with onset and
offset rewritten to position + (segment_onset or segment_offset) -
range_onset of the owning record. -/
theorem C8_collapse (readFile : String → String → List SegRow) (anns : List AnnRec) :
    (∀ (pre : List AnnRec) (r : AnnRec) (post : List AnnRec),
      assignPositions (fun _ => 0) (sortBy collapseLt anns) = pre ++ r :: post →
      r.position = ((pre.filter (fun q => decide (q.set = r.set))).map duration).sum) ∧
    (∀ o ∈ get_collapsed_segments readFile anns,
      ∃ o0 ∈ get_segments readFile (assignPositions (fun _ => 0) (sortBy collapseLt anns)),
        o.ann = o0.ann ∧
        o.seg.raw_filename = o0.seg.raw_filename ∧
        o.seg.attrs = o0.seg.attrs ∧
        o.seg.segment_onset = o0.ann.position + o0.seg.segment_onset - o0.ann.range_onset ∧
        o.seg.segment_offset = o0.ann.position + o0.seg.segment_offset - o0.ann.range_onset) := by
  constructor
  · intro pre r post h
    have := assignPositions_spec (sortBy collapseLt anns) (fun _ => 0) pre r post h
    simpa using this
  · intro o ho
    unfold get_collapsed_segments at ho
    obtain ⟨o0, ho0, heq⟩ := List.mem_map.mp ho
    refine ⟨o0, ho0, ?_, ?_, ?_, ?_, ?_⟩ <;> rw [← heq] <;> simp <;> ring

/-- First record of the C8 witness: set A, range 0..100, file x.csv. -/
def w8a : AnnRec :=
  ⟨"A", "rec1.wav", 0, 0, 100, "a.rttm", "vtc_rttm", some "x.csv", none, none, none, "", 0⟩

/-- Second record of the C8 witness: set A, range 0..50, file y.csv; it sorts
before w8a (same recording, same absolute onset, smaller absolute offset). -/
def w8b : AnnRec :=
  ⟨"A", "rec1.wav", 0, 0, 50, "b.rttm", "vtc_rttm", some "y.csv", none, none, none, "", 0⟩

/-- The record w8a after position assignment: it follows w8b (duration 50) in
the sorted order, so its position is 50. -/
def w8aPos : AnnRec :=
  ⟨"A", "rec1.wav", 0, 0, 100, "a.rttm", "vtc_rttm", some "x.csv", none, none, none, "", 50⟩

/-- Converted files of the C8 witness. -/
def readFile8 : String → String → List SegRow := fun _ f =>
  if f = "x.csv" then [⟨0, 80, "xr", "CHI"⟩] else [⟨0, 40, "yr", "FEM"⟩]

theorem C8_collapse_witness :
    (w8aPos.position =
      (([w8b].filter (fun q => decide (q.set = w8aPos.set))).map duration).sum) ∧
    (∃ o0 ∈ get_segments readFile8 (assignPositions (fun _ => 0) (sortBy collapseLt [w8a, w8b])),
      (OutSeg.mk ⟨50, 130, "xr", "CHI"⟩ w8aPos).ann = o0.ann ∧
      (OutSeg.mk ⟨50, 130, "xr", "CHI"⟩ w8aPos).seg.raw_filename = o0.seg.raw_filename ∧
      (OutSeg.mk ⟨50, 130, "xr", "CHI"⟩ w8aPos).seg.attrs = o0.seg.attrs ∧
      (OutSeg.mk ⟨50, 130, "xr", "CHI"⟩ w8aPos).seg.segment_onset =
        o0.ann.position + o0.seg.segment_onset - o0.ann.range_onset ∧
      (OutSeg.mk ⟨50, 130, "xr", "CHI"⟩ w8aPos).seg.segment_offset =
        o0.ann.position + o0.seg.segment_offset - o0.ann.range_onset) :=
  ⟨(C8_collapse readFile8 [w8a, w8b]).1 [w8b] w8aPos [] (by decide),
   (C8_collapse readFile8 [w8a, w8b]).2 (OutSeg.mk ⟨50, 130, "xr", "CHI"⟩ w8aPos)
     (by decide)⟩

/-- The attribute columns merge_sets allows in left_columns/right_columns:
every segment column except raw_filename, segment_onset, segment_offset. -/
def allowedMergeCols : List String :=
  (SEGMENTS_COLUMNS.map (fun c => c.1)).filter
    (fun c => !(decide (c ∈ ["raw_filename", "segment_onset", "segment_offset"])))

/-- The attribute columns the union must cover: the required segment columns
except raw_filename, segment_onset, segment_offset (an empty set, since those
three are the only required segment columns, making the fourth assert
vacuous; it is nevertheless checked). -/
def requiredMergeCols : List String :=
  ((SEGMENTS_COLUMNS.filter (fun c => c.2)).map (fun c => c.1)).filter
    (fun c => !(decide (c ∈ ["raw_filename", "segment_onset", "segment_offset"])))

/-- Work performed by merge_sets after its asserts: restrict the index to the
error-free records of the two sets, intersect their coverage, split the
intersection into the left and right sides with synthetic interval
identifiers (row numbers), and build one work unit per recording of the left
side, ready for pool dispatch to merge_annotations. -/
def mergeSetsBody (left_set right_set : String) (index : List AnnRec) :
    List (List (Nat × AnnRec) × List (Nat × AnnRec)) :=
  ((uniqueFirst
      ((((intersection
            ((index.filter (fun r =>
                decide (r.set = left_set) || decide (r.set = right_set))).filter
              (fun r => r.error.isNone))
            [left_set, right_set]).filter
          (fun r => decide (r.set = left_set))).enum).map
        (fun p => p.2.recording_filename))).map
    (fun recording =>
      (((((intersection
              ((index.filter (fun r =>
                  decide (r.set = left_set) || decide (r.set = right_set))).filter
                (fun r => r.error.isNone))
              [left_set, right_set]).filter
            (fun r => decide (r.set = left_set))).enum).filter
          (fun p => decide (p.2.recording_filename = recording))),
        ((((intersection
              ((index.filter (fun r =>
                  decide (r.set = left_set) || decide (r.set = right_set))).filter
                (fun r => r.error.isNone))
              [left_set, right_set]).filter
            (fun r => decide (r.set = right_set))).enum).filter
          (fun p => decide (p.2.recording_filename = recording))))))

/-- AnnotationManager.merge_sets: the four asserts, in source order, run
before anything touches the index, the filesystem or the pool; only when all
of them pass is the work of the operation (modelled by its per-recording
dispatch list) produced. -/
def merge_sets (left_set right_set : String)
    (left_columns right_columns : List String) (index : List AnnRec) :
    Except String (List (List (Nat × AnnRec) × List (Nat × AnnRec))) :=
  if left_set = right_set then Except.error "sets must differ"
  else if ∃ c ∈ left_columns, c ∈ right_columns then
    Except.error "left_columns and right_columns must be disjoint"
  else if ¬ (∀ c ∈ left_columns ++ right_columns, c ∈ allowedMergeCols) then
    Except.error "left_columns and right_columns have unexpected values"
  else if ¬ (∀ c ∈ requiredMergeCols, c ∈ left_columns ++ right_columns) then
    Except.error "left_columns and right_columns have missing values"
  else Except.ok (mergeSetsBody left_set right_set index)

/-- Claim C7 (confirmed): every precondition of merge_sets is checked before
any I/O is performed or any worker dispatched, and a violation is fatal: when
left_set equals right_set, or the column selections overlap, or their union
leaves the allowed segment attribute columns, or the union misses a mandatory
segment attribute column, the call aborts with the message of the first
failed assert, uniformly in the index (hence before anything is read from or
written to storage, and with no work unit produced). -/
theorem C7_preconditions_first (left_set right_set : String)
    (left_columns right_columns : List String)
    (h : left_set = right_set ∨
      (∃ c ∈ left_columns, c ∈ right_columns) ∨
      (∃ c ∈ left_columns ++ right_columns, c ∉ allowedMergeCols) ∨
      (∃ c ∈ requiredMergeCols, c ∉ left_columns ++ right_columns)) :
    ∃ msg, ∀ index : List AnnRec,
      merge_sets left_set right_set left_columns right_columns index =
        Except.error msg := by
  by_cases h1 : left_set = right_set
  · exact ⟨"sets must differ", fun index => by unfold merge_sets; rw [if_pos h1]⟩
  by_cases h2 : ∃ c ∈ left_columns, c ∈ right_columns
  · exact ⟨"left_columns and right_columns must be disjoint",
      fun index => by unfold merge_sets; rw [if_neg h1, if_pos h2]⟩
  by_cases h3 : ¬ (∀ c ∈ left_columns ++ right_columns, c ∈ allowedMergeCols)
  · exact ⟨"left_columns and right_columns have unexpected values",
      fun index => by unfold merge_sets; rw [if_neg h1, if_neg h2, if_pos h3]⟩
  by_cases h4 : ¬ (∀ c ∈ requiredMergeCols, c ∈ left_columns ++ right_columns)
  · exact ⟨"left_columns and right_columns have missing values",
      fun index => by
        unfold merge_sets
        rw [if_neg h1, if_neg h2, if_neg h3, if_pos h4]⟩
  · exfalso
    rcases h with h | h | h | h
    · exact h1 h
    · exact h2 h
    · obtain ⟨c, hc, hnc⟩ := h
      exact hnc (not_not.mp h3 c hc)
    · obtain ⟨c, hc, hnc⟩ := h
      exact hnc (not_not.mp h4 c hc)

theorem C7_preconditions_first_witness :
    ∃ msg, ∀ index : List AnnRec,
      merge_sets "vtc" "vtc" ["speaker_type"] ["ling_type"] index = Except.error msg :=
  C7_preconditions_first "vtc" "vtc" ["speaker_type"] ["ling_type"] (Or.inl rfl)
